import Mathlib

/-!
Shallow embedding of the airline reservation service `app/app.py` (Flask +
PostgreSQL) together with the schema constraints declared in
`data/gerar_populate.py` (`SCHEMA_SQL`).

Modelling conventions:
* each SQL table is a Lean `List` of records inside a `DB` state record;
* SQL `NULL`-able columns are `Option`; timestamps are `Int` (epoch seconds);
  `NOW()` (the storage engine's canonical clock) is an explicit `dbNow : Int`
  argument threaded into each transaction;
* a handler is a pure function `DB → ... → DB × Except Err Ok`; returning the
  original `DB` in the first component models a rolled-back / read-only
  transaction, a changed `DB` models the committed transaction;
* request JSON is a small inductive `Json`, mirroring the duck-typed checks
  (`isinstance`, truthiness, `.isdigit`, `.strip`) the Python code performs;
* PostgreSQL `regexp_replace(x, pat, '')` without the `g` flag removes only
  the first match, which is mirrored exactly (`removeFirstUpper`,
  `removeFirstDigit`); string `ORDER BY` is byte-wise (C collation).
-/

deriving instance DecidableEq for Except

namespace Aviacao

/-! ### JSON request bodies, mirroring the duck-typed checks

The purchase handler inspects the body only two levels deep (top-level
fields, then fields of each ticket entry), so the JSON fragment is modelled
with three non-recursive types.  `comp` stands for any further-nested
array/object, which the handler only ever subjects to a failing
`isinstance` test. -/

/-- A JSON value appearing as a field of one ticket entry. -/
inductive JField where
  | null
  | jbool (b : Bool)
  | jstr (s : String)
  | jnum (n : Int)
  | comp
deriving Repr, DecidableEq

/-- A JSON value appearing as an element of the `bilhetes_a_comprar`
array: either an object (a Python `dict`) or anything else. -/
inductive JEntry where
  | obj (fields : List (String × JField))
  | notObj
deriving Repr, DecidableEq

/-- A JSON value appearing as a top-level field of the request body. -/
inductive JVal where
  | null
  | jbool (b : Bool)
  | jstr (s : String)
  | jnum (n : Int)
  | jarr (elems : List JEntry)
  | jobjv
deriving Repr, DecidableEq

/-- The parsed request body: `none` for a missing/unparseable body, `some`
for a JSON object with its field list (a Python `dict`, so keys are
unique; the first binding wins in lookups). -/
abbrev Body := Option (List (String × JVal))

/-- Python `dict.get`. -/
def jlookup (fields : List (String × α)) (k : String) : Option α :=
  (fields.find? (fun p => p.1 == k)).map (fun p => p.2)

/-! ### Python string primitives (ASCII fragment used by the handlers) -/

/-- Python `str.isupper`: at least one cased character and no lowercase
cased character.  (For the ASCII strings handled here, cased = alphabetic.) -/
def pyIsUpper (s : String) : Bool :=
  s.data.any (fun c => c.isAlpha) && s.data.all (fun c => !c.isLower)

/-- Python `str.isdigit` (ASCII fragment): non-empty and all digits. -/
def pyIsDigit (s : String) : Bool :=
  !s.isEmpty && s.data.all (fun c => c.isDigit)

/-- Python `str.upper` (ASCII fragment), written on the character list. -/
def pyUpper (s : String) : String :=
  ⟨s.data.map Char.toUpper⟩

/-- Python `not s.strip()`: the string is empty or all whitespace (ASCII
fragment of the whitespace set). -/
def pyStripEmpty (s : String) : Bool :=
  s.data.all (fun c => c.isWhitespace)

/-! ### Storage rows (tables from `SCHEMA_SQL`) -/

structure Aeroporto where
  codigo : String
  nome : String
  cidade : String
  pais : String
deriving Repr, DecidableEq

structure Aviao where
  no_serie : String
  modelo : String
deriving Repr, DecidableEq

structure Assento where
  lugar : String
  no_serie : String
  prim_classe : Bool
deriving Repr, DecidableEq

structure Voo where
  id : Nat
  no_serie : String
  hora_partida : Int
  hora_chegada : Int
  partida : String
  chegada : String
deriving Repr, DecidableEq

structure Venda where
  codigo_reserva : Nat
  nif_cliente : String
  balcao : String
  hora : Int
deriving Repr, DecidableEq

structure Bilhete where
  id : Nat
  voo_id : Nat
  codigo_reserva : Nat
  nome_passegeiro : String
  preco : Nat
  prim_classe : Bool
  lugar : Option String
  no_serie : Option String
deriving Repr, DecidableEq

/-- The persistent database state.  The two `next_*` counters model the
PostgreSQL `SERIAL` sequences behind `venda.codigo_reserva` and
`bilhete.id`. -/
structure DB where
  aeroportos : List Aeroporto
  avioes : List Aviao
  assentos : List Assento
  voos : List Voo
  vendas : List Venda
  bilhetes : List Bilhete
  next_codigo_reserva : Nat
  next_bilhete_id : Nat
deriving Repr, DecidableEq

/-! ### Seat ordering used by the check-in query

`ORDER BY CAST(regexp_replace(a.lugar, '[A-Z]', '') AS INTEGER),
          regexp_replace(a.lugar, '[0-9]', '')`
PostgreSQL `regexp_replace` without the `g` flag deletes only the first
match of the pattern. -/

/-- Delete the first uppercase letter of a character list
(`regexp_replace(x, '[A-Z]', '')`). -/
def removeFirstUpper : List Char → List Char
  | [] => []
  | c :: cs => if c.isUpper then cs else c :: removeFirstUpper cs

/-- Delete the first decimal digit of a character list
(`regexp_replace(x, '[0-9]', '')`). -/
def removeFirstDigit : List Char → List Char
  | [] => []
  | c :: cs => if c.isDigit then cs else c :: removeFirstDigit cs

/-- `CAST(s AS INTEGER)` for a string of decimal digits. -/
def castDigits (cs : List Char) : Nat :=
  cs.foldl (fun n c => n * 10 + (c.toNat - 48)) 0

/-- Byte-wise lexicographic strict comparison of character lists: the string
order PostgreSQL uses for the second sort key (C collation). -/
def lexLt : List Char → List Char → Bool
  | [], [] => false
  | [], _ :: _ => true
  | _ :: _, [] => false
  | a :: as, b :: bs => if a < b then true else if b < a then false else lexLt as bs

/-- First sort key of the check-in seat query. -/
def seatKeyRow (l : String) : Nat :=
  castDigits (removeFirstUpper l.data)

/-- Second sort key of the check-in seat query. -/
def seatKeyStr (l : String) : List Char :=
  removeFirstDigit l.data

/-- Strict "comes before" relation between seat labels under the query's
`ORDER BY` clause. -/
def seatLtB (x y : String) : Bool :=
  seatKeyRow x < seatKeyRow y ||
    (seatKeyRow x == seatKeyRow y && lexLt (seatKeyStr x) (seatKeyStr y))

/-- One step of the running minimum behind `ORDER BY ... LIMIT 1`. -/
def seatMinStep (acc : Option Assento) (a : Assento) : Option Assento :=
  match acc with
  | none => some a
  | some b => if seatLtB a.lugar b.lugar then some a else some b

/-- `ORDER BY ... LIMIT 1`: the first seat in sort order (the running
minimum; on equal keys the earlier row is kept). -/
def selectFirstSeat (l : List Assento) : Option Assento :=
  l.foldl seatMinStep none

/-- The `NOT EXISTS` occupancy subquery of the check-in seat query: some
ticket of this flight already references the seat of this aircraft. -/
def seatOccupied (db : DB) (vooId : Nat) (a : Assento) : Bool :=
  db.bilhetes.any (fun b =>
    b.voo_id == vooId && b.lugar == some a.lugar && b.no_serie == some a.no_serie)

/-- The rows scanned by the check-in seat query: seats of the flight's
aircraft with the ticket's cabin class that are not occupied on this
flight. -/
def candidateSeats (db : DB) (ns : String) (pc : Bool) (vooId : Nat) : List Assento :=
  db.assentos.filter (fun a =>
    a.no_serie == ns && a.prim_classe == pc && !seatOccupied db vooId a)

/-- The full `sql_find_seat` query of `checkin_ticket`. -/
def sql_find_seat (db : DB) (ns : String) (pc : Bool) (vooId : Nat) : Option Assento :=
  selectFirstSeat (candidateSeats db ns pc vooId)

/-! ### Check-in handler (`POST /checkin/<bilhete_id>/`) -/

inductive CheckinErr where
  | ticketNotFound
  | alreadyCheckedIn (seat : String)
  | flightDeparted
  | noSeats
deriving Repr, DecidableEq

/-- HTTP status code of each check-in failure. -/
def checkinHttp : CheckinErr → Nat
  | .ticketNotFound => 404
  | .alreadyCheckedIn _ => 409
  | .flightDeparted => 409
  | .noSeats => 409

/-- The 200 payload of a successful check-in. -/
structure CheckinOk where
  bilhete_id : Nat
  lugar_atribuido : String
  aviao_no_serie : String
deriving Repr, DecidableEq

/-- The opening `SELECT ... FROM bilhete b JOIN voo v ON b.voo_id = v.id
WHERE b.id = %s FOR UPDATE OF b` of the check-in transaction: the ticket
row together with its flight row (no row when either is absent). -/
def findTicketWithFlight (db : DB) (tid : Nat) : Option (Bilhete × Voo) :=
  match db.bilhetes.find? (fun b => b.id == tid) with
  | none => none
  | some b =>
    match db.voos.find? (fun v => v.id == b.voo_id) with
    | none => none
    | some v => some (b, v)

/-- `checkin_ticket` from `app.py`.  `dbNow` is the storage engine's
`NOW()`.  The returned `DB` is the post-transaction state (unchanged on
every failure path, since the transaction rolls back or wrote nothing). -/
def checkin_ticket (db : DB) (dbNow : Int) (tid : Nat) : DB × Except CheckinErr CheckinOk :=
  match findTicketWithFlight db tid with
  | none => (db, .error .ticketNotFound)
  | some (b, v) =>
    match b.lugar with
    | some s => (db, .error (.alreadyCheckedIn s))
    | none =>
      if v.hora_partida ≤ dbNow then
        (db, .error .flightDeparted)
      else
        match sql_find_seat db v.no_serie b.prim_classe b.voo_id with
        | none => (db, .error .noSeats)
        | some a =>
          ({ db with
              bilhetes := db.bilhetes.map (fun x =>
                if x.id == tid then
                  { x with lugar := some a.lugar, no_serie := some v.no_serie }
                else x) },
           .ok ⟨tid, a.lugar, v.no_serie⟩)

/-! ### Purchase handler (`POST /compra/<voo_id>/`) -/

inductive ValErr where
  | missingJson
  | badNif
  | badTicketList
  | badTicketEntry (i : Nat)
deriving Repr, DecidableEq

inductive PurchaseErr where
  | invalid (e : ValErr)
  | flightNotFound
  | saleClosed
  | duplicateTicket
deriving Repr, DecidableEq

/-- HTTP status code of each purchase failure (`duplicateTicket` is the
unique-violation pgcode 23505, mapped to 409 by the error handler). -/
def purchaseHttp : PurchaseErr → Nat
  | .invalid _ => 400
  | .flightNotFound => 404
  | .saleClosed => 409
  | .duplicateTicket => 409

/-- A validated ticket request entry. -/
structure TicketReq where
  nome_passageiro : String
  prim_classe : Bool
deriving Repr, DecidableEq

/-- One element of the 201 payload's ticket list. -/
structure BilheteDet where
  id_bilhete : Nat
  passageiro : String
  primeira : Bool
  preco : Nat
deriving Repr, DecidableEq

/-- The 201 payload of a successful purchase. -/
structure PurchaseOk where
  codigo_reserva : Nat
  bilhetes_comprados : List BilheteDet
deriving Repr, DecidableEq

/-- The fixed-rate price table: `500.00 if prim_classe else 150.00`. -/
def precoFor (pc : Bool) : Nat :=
  if pc then 500 else 150

/-- One ticket-entry dictionary passes the handler's checks: it is a dict,
holds a string `nome_passageiro` that is non-blank after `strip`, and holds
a boolean `prim_classe`. -/
def entryOk (j : JEntry) : Option TicketReq :=
  match j with
  | .obj fields =>
    match jlookup fields "nome_passageiro", jlookup fields "prim_classe" with
    | some (.jstr nome), some (.jbool pc) =>
      if pyStripEmpty nome then none else some ⟨nome, pc⟩
    | _, _ => none
  | .notObj => none

/-- The indexed loop validating `bilhetes_a_comprar`, reporting the first
bad index. -/
def checkEntries : Nat → List JEntry → Except ValErr (List TicketReq)
  | _, [] => .ok []
  | i, j :: rest =>
    match entryOk j with
    | none => .error (.badTicketEntry i)
    | some t =>
      match checkEntries (i + 1) rest with
      | .error e => .error e
      | .ok ts => .ok (t :: ts)

/-- All request-body validation performed by `purchase_tickets` before it
takes a connection from the pool (`if not data`, the NIF checks, the list
checks, the per-entry checks). -/
def validateBody (data : Body) : Except ValErr (String × List TicketReq) :=
  match data with
  | none => .error .missingJson
  | some fields =>
    if fields.isEmpty then .error .missingJson
    else
      match jlookup fields "nif_cliente" with
      | some (.jstr s) =>
        if s.length == 9 && pyIsDigit s then
          match jlookup fields "bilhetes_a_comprar" with
          | some (.jarr l) =>
            if l.isEmpty then .error .badTicketList
            else
              match checkEntries 0 l with
              | .error e => .error e
              | .ok ts => .ok (s, ts)
          | _ => .error .badTicketList
        else .error .badNif
      | _ => .error .badNif

/-- The `UNIQUE (voo_id, codigo_reserva, nome_passegeiro)` constraint of
`bilhete`: the insert about to happen collides with an existing row. -/
def dupTicket (bs : List Bilhete) (vooId res : Nat) (nome : String) : Bool :=
  bs.any (fun b =>
    b.voo_id == vooId && b.codigo_reserva == res && b.nome_passegeiro == nome)

/-- The per-ticket `INSERT INTO bilhete ... RETURNING id` loop.  Each
insert is checked against the table as grown so far (the SQL constraint
sees the rows of the open transaction too); `none` models the constraint
violation that aborts the transaction. -/
def insertBilhetes (vooId res : Nat) (ns : String) :
    List Bilhete → Nat → List TicketReq → Option (List Bilhete × List BilheteDet)
  | bs, _, [] => some (bs, [])
  | bs, nextId, t :: ts =>
    if dupTicket bs vooId res t.nome_passageiro then none
    else
      match insertBilhetes vooId res ns
          (bs ++ [⟨nextId, vooId, res, t.nome_passageiro, precoFor t.prim_classe,
                   t.prim_classe, none, some ns⟩])
          (nextId + 1) ts with
      | none => none
      | some (bs2, dets) =>
        some (bs2, ⟨nextId, t.nome_passageiro, t.prim_classe, precoFor t.prim_classe⟩ :: dets)

/-- `purchase_tickets` from `app.py`.  `dbNow` is the storage engine's
`NOW()`, read once inside the transaction and used both for the cutoff
comparison and as the `venda.hora` stamp.  Failure returns the unchanged
`db` (rollback / nothing written). -/
def purchase_tickets (db : DB) (dbNow : Int) (vooId : Nat) (data : Body) :
    DB × Except PurchaseErr PurchaseOk :=
  match validateBody data with
  | .error e => (db, .error (.invalid e))
  | .ok (nif, reqs) =>
    match db.voos.find? (fun v => v.id == vooId) with
    | none => (db, .error .flightNotFound)
    | some voo =>
      if voo.hora_partida ≤ dbNow then
        (db, .error .saleClosed)
      else
        match insertBilhetes vooId db.next_codigo_reserva voo.no_serie
            db.bilhetes db.next_bilhete_id reqs with
        | none => (db, .error .duplicateTicket)
        | some (bs2, dets) =>
          ({ db with
              vendas := db.vendas ++ [⟨db.next_codigo_reserva, nif, voo.partida, dbNow⟩],
              bilhetes := bs2,
              next_codigo_reserva := db.next_codigo_reserva + 1,
              next_bilhete_id := db.next_bilhete_id + reqs.length },
           .ok ⟨db.next_codigo_reserva, dets⟩)

/-! ### Flight-listing routes -/

inductive DepErr where
  | badFormat
  | unknownAirport
deriving Repr, DecidableEq

/-- HTTP status code of each single-airport listing failure. -/
def depHttp : DepErr → Nat
  | .badFormat => 400
  | .unknownAirport => 404

/-- Departure-time order used by the `ORDER BY v.hora_partida` clauses. -/
def vooLe (a b : Voo) : Prop :=
  a.hora_partida ≤ b.hora_partida

instance : DecidableRel vooLe := fun a b => Int.decLe a.hora_partida b.hora_partida

instance : IsTotal Voo vooLe :=
  ⟨fun a b => Int.le_total a.hora_partida b.hora_partida⟩

instance : IsTrans Voo vooLe :=
  ⟨fun _ _ _ hab hbc => le_trans hab hbc⟩

/-- Twelve hours, in seconds (`timedelta(hours=12)`). -/
def twelveHours : Int := 43200

/-- `list_flights_from_departure` (`GET /voos/<partida_codigo>/`): format
check on the raw path parameter, existence check, then the 12-hour window
query ordered by departure time.  `now` is the application clock. -/
def list_flights_from_departure (db : DB) (now : Int) (partida_codigo : String) :
    Except DepErr (List Voo) :=
  if !(partida_codigo.length == 3 && pyIsUpper partida_codigo) then
    .error .badFormat
  else if !(db.aeroportos.any (fun a => a.codigo == pyUpper partida_codigo)) then
    .error .unknownAirport
  else
    .ok (List.insertionSort vooLe (db.voos.filter (fun v =>
      v.partida == pyUpper partida_codigo &&
        now < v.hora_partida && v.hora_partida ≤ now + twelveHours)))

inductive RouteErr where
  | badFormat
  | sameAirports
  | unknownAirport
deriving Repr, DecidableEq

/-- HTTP status code of each two-airport route failure. -/
def routeHttp : RouteErr → Nat
  | .badFormat => 400
  | .sameAirports => 400
  | .unknownAirport => 404

/-- The three 200 outcomes of the route query: no scheduled flight at all,
all flights full, or up to three available flights. -/
inductive RouteResp where
  | noFlights
  | allFull
  | available (flights : List Voo)
deriving Repr, DecidableEq

/-- `SELECT COUNT(*) FROM assento WHERE no_serie = ns`. -/
def seatCount (db : DB) (ns : String) : Nat :=
  (db.assentos.filter (fun a => a.no_serie == ns)).length

/-- `SELECT COUNT(*) FROM bilhete WHERE voo_id = vooId` — every ticket of
the flight counts, seat assigned or not. -/
def ticketCount (db : DB) (vooId : Nat) : Nat :=
  (db.bilhetes.filter (fun b => b.voo_id == vooId)).length

/-- Rows of `query_all_flights`: the route's future flights. -/
def routeAll (db : DB) (now : Int) (pu cu : String) : List Voo :=
  db.voos.filter (fun v =>
    v.partida == pu && v.chegada == cu && now < v.hora_partida)

/-- Rows of `query_available` before `ORDER BY`/`LIMIT`: the route's
future flights (joined with `aviao`) whose seat count exceeds their ticket
count. -/
def routeAvail (db : DB) (now : Int) (pu cu : String) : List Voo :=
  db.voos.filter (fun v =>
    v.partida == pu && v.chegada == cu && now < v.hora_partida &&
      db.avioes.any (fun av => av.no_serie == v.no_serie) &&
      ticketCount db v.id < seatCount db v.no_serie)

/-- `list_next_available_flights` (`GET /voos/<partida>/<chegada>/`).
Both path parameters are uppercased before the format check.  The SQL
`NOW()` of the two queries is `now`. -/
def list_next_available_flights (db : DB) (now : Int) (partida chegada : String) :
    Except RouteErr RouteResp :=
  let pu := pyUpper partida
  let cu := pyUpper chegada
  if !(pu.length == 3 && pyIsUpper pu && cu.length == 3 && pyIsUpper cu) then
    .error .badFormat
  else if pu == cu then
    .error .sameAirports
  else if !(db.aeroportos.any (fun a => a.codigo == pu)) ||
      !(db.aeroportos.any (fun a => a.codigo == cu)) then
    .error .unknownAirport
  else
    if (routeAll db now pu cu).isEmpty then .ok .noFlights
    else
      let avail := (List.insertionSort vooLe (routeAvail db now pu cu)).take 3
      if avail.isEmpty then .ok .allFull
      else .ok (.available avail)

/-! ### Canonical seat labels

The schema constrains seat labels by `CHECK (lugar ~ '^[0-9]{1,2}[A-Z]$')`:
a row number followed by one cabin letter.  `natToDigits` is the canonical
decimal numeral (no leading zero); `LabelIs l r c` says the label `l` is
the canonically written row number `r` followed by the cabin letter `c`. -/

/-- Decimal digits of `n`, most significant first; the first argument is
recursion fuel (any bound above `n` works). -/
def natToDigitsAux : Nat → Nat → List Char
  | 0, _ => []
  | fuel + 1, n =>
    if n < 10 then [Nat.digitChar n]
    else natToDigitsAux fuel (n / 10) ++ [Nat.digitChar (n % 10)]

/-- Canonical decimal numeral of `n` (no leading zeros). -/
def natToDigits (n : Nat) : List Char :=
  natToDigitsAux (n + 1) n

/-- The label `l` is the canonical decimal numeral of row `r` followed by
the single uppercase cabin letter `c`. -/
def LabelIs (l : String) (r : Nat) (c : Char) : Prop :=
  l.data = natToDigits r ++ [c] ∧ c.isUpper = true

instance (l : String) (r : Nat) (c : Char) : Decidable (LabelIs l r c) :=
  inferInstanceAs (Decidable (_ ∧ _))

/-! ### Arithmetic facts about the seat-label keys -/

theorem digitChar_toNat (d : Nat) (h : d < 10) : (Nat.digitChar d).toNat = 48 + d := by
  interval_cases d <;> decide

theorem digitChar_isDigit (d : Nat) (h : d < 10) : (Nat.digitChar d).isDigit = true := by
  interval_cases d <;> decide

theorem digitChar_isUpper (d : Nat) (h : d < 10) : (Nat.digitChar d).isUpper = false := by
  interval_cases d <;> decide

theorem castDigits_append_single (cs : List Char) (c : Char) :
    castDigits (cs ++ [c]) = castDigits cs * 10 + (c.toNat - 48) := by
  simp [castDigits, List.foldl_append]

theorem castDigits_natToDigitsAux :
    ∀ fuel n, n < fuel → castDigits (natToDigitsAux fuel n) = n := by
  intro fuel
  induction fuel with
  | zero => intro n h; omega
  | succ fuel ih =>
    intro n h
    by_cases h10 : n < 10
    · simp only [natToDigitsAux, if_pos h10]
      have := digitChar_toNat n h10
      simp [castDigits, this]
    · have hdiv : n / 10 < fuel := by
        have h1 : n / 10 < n := Nat.div_lt_self (by omega) (by omega)
        omega
      simp only [natToDigitsAux, if_neg h10]
      rw [castDigits_append_single, ih (n / 10) hdiv,
        digitChar_toNat (n % 10) (Nat.mod_lt n (by omega))]
      omega

theorem castDigits_natToDigits (n : Nat) : castDigits (natToDigits n) = n :=
  castDigits_natToDigitsAux (n + 1) n (Nat.lt_succ_self n)

theorem natToDigitsAux_mem :
    ∀ fuel n c, c ∈ natToDigitsAux fuel n → c.isDigit = true ∧ c.isUpper = false := by
  intro fuel
  induction fuel with
  | zero => intro n c h; simp [natToDigitsAux] at h
  | succ fuel ih =>
    intro n c h
    by_cases h10 : n < 10
    · simp only [natToDigitsAux, if_pos h10, List.mem_singleton] at h
      subst h
      exact ⟨digitChar_isDigit n h10, digitChar_isUpper n h10⟩
    · simp only [natToDigitsAux, if_neg h10, List.mem_append, List.mem_singleton] at h
      rcases h with h | h
      · exact ih (n / 10) c h
      · subst h
        exact ⟨digitChar_isDigit _ (Nat.mod_lt n (by omega)),
          digitChar_isUpper _ (Nat.mod_lt n (by omega))⟩

theorem natToDigits_ne_nil (n : Nat) : natToDigits n ≠ [] := by
  unfold natToDigits natToDigitsAux
  by_cases h10 : n < 10 <;> simp [h10]

theorem natToDigits_mem (n : Nat) (c : Char) (h : c ∈ natToDigits n) :
    c.isDigit = true ∧ c.isUpper = false :=
  natToDigitsAux_mem (n + 1) n c h

theorem removeFirstUpper_append (ds : List Char) (c : Char)
    (hds : ∀ d ∈ ds, d.isUpper = false) (hc : c.isUpper = true) :
    removeFirstUpper (ds ++ [c]) = ds := by
  induction ds with
  | nil => simp [removeFirstUpper, hc]
  | cons d t iht =>
    have hd := hds d (List.mem_cons_self d t)
    have h1 : removeFirstUpper ((d :: t) ++ [c]) = d :: removeFirstUpper (t ++ [c]) := by
      simp [removeFirstUpper, hd]
    rw [h1, iht (fun x hx => hds x (List.mem_cons_of_mem d hx))]

theorem seatKeyRow_of_labelIs {l : String} {r : Nat} {c : Char} (h : LabelIs l r c) :
    seatKeyRow l = r := by
  obtain ⟨hdata, hup⟩ := h
  unfold seatKeyRow
  rw [hdata, removeFirstUpper_append _ _ (fun d hd => (natToDigits_mem r d hd).2) hup,
    castDigits_natToDigits]

theorem seatKeyStr_of_labelIs {l : String} {r : Nat} {c : Char} (h : LabelIs l r c) :
    seatKeyStr l = (natToDigits r).tail ++ [c] := by
  obtain ⟨hdata, _⟩ := h
  unfold seatKeyStr
  rw [hdata]
  obtain ⟨d, t, hdt⟩ : ∃ d t, natToDigits r = d :: t := by
    cases hnd : natToDigits r with
    | nil => exact absurd hnd (natToDigits_ne_nil r)
    | cons d t => exact ⟨d, t, rfl⟩
  have hd : d.isDigit = true := by
    have hm : d ∈ natToDigits r := by rw [hdt]; exact List.mem_cons_self d t
    exact (natToDigits_mem r d hm).1
  rw [hdt]
  simp [removeFirstDigit, hd]

/-! ### Order-theoretic facts about the seat-label comparison -/

theorem lexLt_irrefl : ∀ l : List Char, lexLt l l = false := by
  intro l
  induction l with
  | nil => rfl
  | cons a t ih => simp [lexLt, lt_irrefl, ih]

theorem lexLt_trans :
    ∀ a b c : List Char, lexLt a b = true → lexLt b c = true → lexLt a c = true := by
  intro a
  induction a with
  | nil =>
    intro b c hab hbc
    cases b with
    | nil => simp [lexLt] at hab
    | cons y ys =>
      cases c with
      | nil => simp [lexLt] at hbc
      | cons z zs => simp [lexLt]
  | cons x xs ih =>
    intro b c hab hbc
    cases b with
    | nil => simp [lexLt] at hab
    | cons y ys =>
      cases c with
      | nil => simp [lexLt] at hbc
      | cons z zs =>
        simp only [lexLt] at hab hbc ⊢
        by_cases hxy : x < y
        · by_cases hyz : y < z
          · rw [if_pos (lt_trans hxy hyz)]
          · rw [if_neg hyz] at hbc
            by_cases hzy : z < y
            · rw [if_pos hzy] at hbc
              exact absurd hbc (by simp)
            · have heq : y = z := le_antisymm (le_of_not_lt hzy) (le_of_not_lt hyz)
              rw [if_pos (heq ▸ hxy)]
        · rw [if_neg hxy] at hab
          by_cases hyx : y < x
          · rw [if_pos hyx] at hab
            exact absurd hab (by simp)
          · rw [if_neg hyx] at hab
            have hexy : x = y := le_antisymm (le_of_not_lt hyx) (le_of_not_lt hxy)
            by_cases hyz : y < z
            · rw [if_pos (hexy ▸ hyz)]
            · rw [if_neg hyz] at hbc
              by_cases hzy : z < y
              · rw [if_pos hzy] at hbc
                exact absurd hbc (by simp)
              · rw [if_neg hzy] at hbc
                have heyz : y = z := le_antisymm (le_of_not_lt hzy) (le_of_not_lt hyz)
                have hexz : x = z := hexy.trans heyz
                rw [if_neg (hexz ▸ lt_irrefl x), if_neg (hexz ▸ lt_irrefl x)]
                exact ih ys zs hab hbc

theorem lexLt_connex :
    ∀ a b : List Char, lexLt a b = false → a = b ∨ lexLt b a = true := by
  intro a
  induction a with
  | nil =>
    intro b h
    cases b with
    | nil => exact Or.inl rfl
    | cons y ys => simp [lexLt] at h
  | cons x xs ih =>
    intro b h
    cases b with
    | nil => exact Or.inr rfl
    | cons y ys =>
      simp only [lexLt] at h ⊢
      by_cases hxy : x < y
      · rw [if_pos hxy] at h
        exact absurd h (by simp)
      · rw [if_neg hxy] at h
        by_cases hyx : y < x
        · exact Or.inr (by rw [if_pos hyx])
        · rw [if_neg hyx] at h
          have hexy : x = y := le_antisymm (le_of_not_lt hyx) (le_of_not_lt hxy)
          rcases ih ys h with he | hlt
          · exact Or.inl (by rw [hexy, he])
          · refine Or.inr ?_
            rw [if_neg (hexy ▸ hyx), if_neg (hexy ▸ hxy)]
            exact hlt

theorem lexLt_append_same :
    ∀ (t : List Char) (x y : Char), (lexLt (t ++ [x]) (t ++ [y]) = true) ↔ x < y := by
  intro t
  induction t with
  | nil =>
    intro x y
    by_cases h : x < y
    · simp [lexLt, h]
    · by_cases h2 : y < x
      · simp [lexLt, h, h2]
      · simp [lexLt, h, h2]
  | cons c t ih =>
    intro x y
    simp only [List.cons_append, lexLt, lt_irrefl, if_false]
    exact ih x y

theorem seatLtB_iff (x y : String) :
    seatLtB x y = true ↔
      (seatKeyRow x < seatKeyRow y ∨
        (seatKeyRow x = seatKeyRow y ∧ lexLt (seatKeyStr x) (seatKeyStr y) = true)) := by
  simp [seatLtB, Bool.or_eq_true, Bool.and_eq_true, beq_iff_eq, decide_eq_true_eq]

theorem seatLtB_irrefl (x : String) : seatLtB x x = false := by
  simp [seatLtB, lexLt_irrefl]

theorem seatLtB_trans (x y z : String)
    (hxy : seatLtB x y = true) (hyz : seatLtB y z = true) : seatLtB x z = true := by
  rw [seatLtB_iff] at hxy hyz ⊢
  rcases hxy with h1 | ⟨h1, h1s⟩ <;> rcases hyz with h2 | ⟨h2, h2s⟩
  · exact Or.inl (lt_trans h1 h2)
  · exact Or.inl (h2 ▸ h1)
  · exact Or.inl (h1 ▸ h2)
  · exact Or.inr ⟨h1.trans h2, lexLt_trans _ _ _ h1s h2s⟩

theorem seatLtB_lt_of_lt_of_nlt (x y z : String)
    (hxy : seatLtB x y = true) (hzy : seatLtB z y = false) : seatLtB x z = true := by
  have hn : ¬seatLtB z y = true := by simp [hzy]
  rw [seatLtB_iff] at hn hxy ⊢
  push_neg at hn
  obtain ⟨hrow, hrest⟩ := hn
  rcases hxy with h1 | ⟨h1, h1s⟩
  · rcases Nat.lt_or_ge (seatKeyRow y) (seatKeyRow z) with h2 | h2
    · exact Or.inl (lt_trans h1 h2)
    · have : seatKeyRow y = seatKeyRow z := by omega
      exact Or.inl (this ▸ h1)
  · have h2 : seatKeyRow y ≤ seatKeyRow z := by omega
    rcases Nat.lt_or_ge (seatKeyRow y) (seatKeyRow z) with h3 | h3
    · exact Or.inl (h1 ▸ h3)
    · have heq : seatKeyRow z = seatKeyRow y := by omega
      have hres := hrest heq
      rcases lexLt_connex (seatKeyStr z) (seatKeyStr y) (by
          cases hv : lexLt (seatKeyStr z) (seatKeyStr y)
          · rfl
          · exact absurd hv hres) with he | hlt
      · exact Or.inr ⟨h1.trans heq.symm, he ▸ h1s⟩
      · exact Or.inr ⟨h1.trans heq.symm, lexLt_trans _ _ _ h1s hlt⟩

/-! ### Specification of the running-minimum seat selection -/

theorem selectFirstSeat_go (l : List Assento) :
    ∀ b : Assento, ∃ m,
      List.foldl seatMinStep (some b) l = some m ∧
      (m = b ∨ m ∈ l) ∧
      seatLtB b.lugar m.lugar = false ∧
      ∀ x ∈ l, seatLtB x.lugar m.lugar = false := by
  induction l with
  | nil =>
    intro b
    exact ⟨b, rfl, Or.inl rfl, seatLtB_irrefl _, fun x hx => absurd hx (List.not_mem_nil x)⟩
  | cons a t ih =>
    intro b
    by_cases h : seatLtB a.lugar b.lugar = true
    · obtain ⟨m, hm, hmem, hba, hall⟩ := ih a
      refine ⟨m, ?_, ?_, ?_, ?_⟩
      · rw [List.foldl_cons]
        rw [show seatMinStep (some b) a = some a from by simp [seatMinStep, h]]
        exact hm
      · rcases hmem with he | hmt
        · exact Or.inr (he ▸ List.mem_cons_self a t)
        · exact Or.inr (List.mem_cons_of_mem a hmt)
      · by_contra hb
        have hb2 : seatLtB b.lugar m.lugar = true := by
          cases hv : seatLtB b.lugar m.lugar
          · exact absurd hv hb
          · rfl
        have hba2 := seatLtB_lt_of_lt_of_nlt _ _ _ hb2 hba
        have hc := seatLtB_trans _ _ _ h hba2
        rw [seatLtB_irrefl] at hc
        exact absurd hc (by simp)
      · intro x hx
        rcases List.mem_cons.mp hx with he | hxt
        · exact he ▸ hba
        · exact hall x hxt
    · have hfalse : seatLtB a.lugar b.lugar = false := by
        cases hv : seatLtB a.lugar b.lugar
        · rfl
        · exact absurd hv h
      obtain ⟨m, hm, hmem, hbm, hall⟩ := ih b
      refine ⟨m, ?_, ?_, hbm, ?_⟩
      · rw [List.foldl_cons]
        rw [show seatMinStep (some b) a = some b from by simp [seatMinStep, hfalse]]
        exact hm
      · rcases hmem with he | hmt
        · exact Or.inl he
        · exact Or.inr (List.mem_cons_of_mem a hmt)
      · intro x hx
        rcases List.mem_cons.mp hx with he | hxt
        · subst he
          by_contra hx2
          have hx3 : seatLtB x.lugar m.lugar = true := by
            cases hv : seatLtB x.lugar m.lugar
            · exact absurd hv hx2
            · rfl
          exact absurd (seatLtB_lt_of_lt_of_nlt _ _ _ hx3 hbm) (by simp [hfalse])
        · exact hall x hxt

theorem selectFirstSeat_eq_none (l : List Assento) :
    selectFirstSeat l = none ↔ l = [] := by
  cases l with
  | nil => simp [selectFirstSeat]
  | cons a t =>
    obtain ⟨m, hm, _, _, _⟩ := selectFirstSeat_go t a
    constructor
    · intro h
      rw [selectFirstSeat, List.foldl_cons] at h
      rw [show seatMinStep none a = some a from rfl] at h
      rw [hm] at h
      exact absurd h (by simp)
    · intro h
      exact absurd h (by simp)

theorem selectFirstSeat_spec (l : List Assento) (m : Assento)
    (h : selectFirstSeat l = some m) :
    m ∈ l ∧ ∀ x ∈ l, seatLtB x.lugar m.lugar = false := by
  cases l with
  | nil => simp [selectFirstSeat] at h
  | cons a t =>
    obtain ⟨m0, hm0, hmem, hba, hall⟩ := selectFirstSeat_go t a
    rw [selectFirstSeat, List.foldl_cons, show seatMinStep none a = some a from rfl, hm0] at h
    have hem : m = m0 := by injection h with h2; exact h2.symm
    subst hem
    constructor
    · rcases hmem with he | hmt
      · exact he ▸ List.mem_cons_self a t
      · exact List.mem_cons_of_mem a hmt
    · intro x hx
      rcases List.mem_cons.mp hx with he | hxt
      · exact he ▸ hba
      · exact hall x hxt

/-- Converting the query's key order into the row-then-letter order, for
canonically written labels. -/
theorem labelOrder_of_not_seatLtB {l1 l2 : String} {r1 r2 : Nat} {c1 c2 : Char}
    (h1 : LabelIs l1 r1 c1) (h2 : LabelIs l2 r2 c2)
    (h : seatLtB l2 l1 = false) :
    r1 < r2 ∨ (r1 = r2 ∧ c1 ≤ c2) := by
  have hn : ¬seatLtB l2 l1 = true := by simp [h]
  rw [seatLtB_iff] at hn
  push_neg at hn
  obtain ⟨hrow, hrest⟩ := hn
  rw [seatKeyRow_of_labelIs h1, seatKeyRow_of_labelIs h2] at hrow hrest
  rcases Nat.lt_or_ge r1 r2 with hlt | hge
  · exact Or.inl hlt
  · have heq : r1 = r2 := by omega
    refine Or.inr ⟨heq, ?_⟩
    have hres := hrest heq.symm
    rw [seatKeyStr_of_labelIs h1, seatKeyStr_of_labelIs h2, heq] at hres
    exact le_of_not_lt (fun hc => hres ((lexLt_append_same _ _ _).mpr hc))

/-- Reduction of `checkin_ticket` up to the seat query, once the ticket is
found, unassigned, and the flight has not departed. -/
theorem checkin_reduce (db : DB) (dbNow : Int) (tid : Nat) (b : Bilhete) (v : Voo)
    (hfind : findTicketWithFlight db tid = some (b, v))
    (hseat : b.lugar = none) (htime : dbNow < v.hora_partida) :
    checkin_ticket db dbNow tid =
      match sql_find_seat db v.no_serie b.prim_classe b.voo_id with
      | none => (db, .error .noSeats)
      | some a =>
        ({ db with
            bilhetes := db.bilhetes.map (fun x =>
              if x.id == tid then
                { x with lugar := some a.lugar, no_serie := some v.no_serie }
              else x) },
         .ok ⟨tid, a.lugar, v.no_serie⟩) := by
  unfold checkin_ticket
  rw [hfind]
  simp only [hseat]
  rw [if_neg (not_le.mpr htime)]

/-! ### Claim-side readings of a seat label -/

/-- The claim's "numeric row number" of a seat label: the integer value of
its digits. -/
def specRowNumber (l : String) : Nat :=
  castDigits (l.data.filter (fun c => c.isDigit))

/-- The claim's "cabin letter" of a seat label: its uppercase letters. -/
def specCabinLetters (l : String) : List Char :=
  l.data.filter (fun c => c.isUpper)

/-! ### Concrete example states -/

/-- An aircraft used by the concrete examples. -/
def exAviao : Aviao := ⟨"P1", "ModelX"⟩

/-- A future flight (departure at canonical time 100) of that aircraft. -/
def exVoo : Voo := ⟨1, "P1", 100, 200, "LIS", "CDG"⟩

/-- An unassigned economy ticket on that flight. -/
def exBilhete : Bilhete := ⟨1, 1, 1, "Ana", 150, false, none, some "P1"⟩

/-- A state whose seat labels are canonically written. -/
def dbCanon : DB :=
  { aeroportos := []
    avioes := [exAviao]
    assentos := [⟨"2B", "P1", false⟩, ⟨"1A", "P1", false⟩]
    voos := [exVoo]
    vendas := []
    bilhetes := [exBilhete]
    next_codigo_reserva := 2
    next_bilhete_id := 2 }

/-- A schema-legal state (seat-label check `^[0-9]{1,2}[A-Z]$`) holding
both `"01B"` and `"1A"`, two row-1 economy seats. -/
def dbLeadZero : DB :=
  { aeroportos := []
    avioes := [exAviao]
    assentos := [⟨"1A", "P1", false⟩, ⟨"01B", "P1", false⟩]
    voos := [exVoo]
    vendas := []
    bilhetes := [exBilhete]
    next_codigo_reserva := 2
    next_bilhete_id := 2 }

/-! ### Claim C1 -/

/-- Claim C1 (amended): for a check-in on an existing, unassigned ticket of
a not-yet-departed flight, the seat is chosen among the seats of the
ticket's aircraft whose first-class flag equals the ticket's, excluding
seats already referenced by a ticket of the same flight with the same
aircraft serial; if no candidate remains the handler fails with Conflict
and writes nothing, and otherwise the chosen candidate is first in
row-then-letter order — row number ascending, then cabin letter ascending —
for candidates whose labels write the row number canonically (no leading
zero, as the schema's populate data does). -/
theorem checkin_seat_selection
    (db : DB) (dbNow : Int) (tid : Nat) (b : Bilhete) (v : Voo)
    (hfind : findTicketWithFlight db tid = some (b, v))
    (hseat : b.lugar = none)
    (htime : dbNow < v.hora_partida) :
    (candidateSeats db v.no_serie b.prim_classe b.voo_id = [] →
      checkin_ticket db dbNow tid = (db, .error .noSeats)) ∧
    (candidateSeats db v.no_serie b.prim_classe b.voo_id ≠ [] →
      ∃ a, a ∈ candidateSeats db v.no_serie b.prim_classe b.voo_id ∧
        (checkin_ticket db dbNow tid).2 = .ok ⟨tid, a.lugar, v.no_serie⟩ ∧
        ∀ x ∈ candidateSeats db v.no_serie b.prim_classe b.voo_id,
          ∀ ra ca rx cx, LabelIs a.lugar ra ca → LabelIs x.lugar rx cx →
            ra < rx ∨ (ra = rx ∧ ca ≤ cx)) := by
  have hred := checkin_reduce db dbNow tid b v hfind hseat htime
  constructor
  · intro hempty
    have hsel : sql_find_seat db v.no_serie b.prim_classe b.voo_id = none := by
      unfold sql_find_seat
      rw [hempty]
      rfl
    rw [hred, hsel]
  · intro hne
    cases hsel : sql_find_seat db v.no_serie b.prim_classe b.voo_id with
    | none => exact absurd ((selectFirstSeat_eq_none _).mp hsel) hne
    | some m =>
      obtain ⟨hmem, hall⟩ := selectFirstSeat_spec _ m hsel
      refine ⟨m, hmem, ?_, ?_⟩
      · rw [hred, hsel]
      · intro x hx ra ca rx cx hA hX
        exact labelOrder_of_not_seatLtB hA hX (hall x hx)

/-- Witness for C1 at a concrete state: seats `"2B"` and `"1A"`; the
check-in picks `"1A"`, minimal in row-then-letter order. -/
theorem checkin_seat_selection_witness :
    candidateSeats dbCanon "P1" false 1 ≠ [] ∧
    (∃ a, a ∈ candidateSeats dbCanon "P1" false 1 ∧
      (checkin_ticket dbCanon 0 1).2 = .ok ⟨1, a.lugar, "P1"⟩ ∧
      ∀ x ∈ candidateSeats dbCanon "P1" false 1,
        ∀ ra ca rx cx, LabelIs a.lugar ra ca → LabelIs x.lugar rx cx →
          ra < rx ∨ (ra = rx ∧ ca ≤ cx)) :=
  ⟨by decide,
   (checkin_seat_selection dbCanon 0 1 exBilhete exVoo (by decide) rfl (by decide)).2
     (by decide)⟩

/-- Counterexample to C1 as frozen: in the schema-legal state `dbLeadZero`
the check-in assigns `"01B"` although the candidate `"1A"` has the same
numeric row number (1) and a strictly smaller cabin letter; the claimed
row-then-letter order is violated because PostgreSQL `regexp_replace`
without the `g` flag deletes only the first digit, so `"01B"` is keyed by
the string `"1B"`, which sorts before `"1A"`'s key `"A"`. -/
theorem checkin_rowletter_counterexample :
    (checkin_ticket dbLeadZero 0 1).2 = .ok (⟨1, "01B", "P1"⟩ : CheckinOk) ∧
    (⟨"1A", "P1", false⟩ : Assento) ∈ candidateSeats dbLeadZero "P1" false 1 ∧
    specRowNumber "1A" = specRowNumber "01B" ∧
    specCabinLetters "1A" = ['A'] ∧
    specCabinLetters "01B" = ['B'] ∧
    'A' < 'B' := by
  decide

/-! ### Inversion lemmas for the check-in handler -/

theorem findTicketWithFlight_inv (db : DB) (tid : Nat) (b : Bilhete) (v : Voo)
    (h : findTicketWithFlight db tid = some (b, v)) :
    db.bilhetes.find? (fun x => x.id == tid) = some b ∧
      db.voos.find? (fun x => x.id == b.voo_id) = some v := by
  unfold findTicketWithFlight at h
  cases hfb : db.bilhetes.find? (fun x => x.id == tid) with
  | none => rw [hfb] at h; simp at h
  | some b0 =>
    rw [hfb] at h
    cases hfv : db.voos.find? (fun x => x.id == b0.voo_id) with
    | none => simp [hfv] at h
    | some v0 =>
      simp only [hfv, Option.some.injEq, Prod.mk.injEq] at h
      obtain ⟨hb, hv⟩ := h
      subst hb
      subst hv
      exact ⟨rfl, hfv⟩

/-- Inversion of a successful check-in: the branch conditions it passed
and the exact final state and payload. -/
theorem checkin_success_inv (db : DB) (dbNow : Int) (tid : Nat) (db2 : DB) (r : CheckinOk)
    (h : checkin_ticket db dbNow tid = (db2, .ok r)) :
    ∃ b v a, findTicketWithFlight db tid = some (b, v) ∧ b.lugar = none ∧
      dbNow < v.hora_partida ∧
      sql_find_seat db v.no_serie b.prim_classe b.voo_id = some a ∧
      r = ⟨tid, a.lugar, v.no_serie⟩ ∧
      db2 = { db with
        bilhetes := db.bilhetes.map (fun x =>
          if x.id == tid then
            { x with lugar := some a.lugar, no_serie := some v.no_serie }
          else x) } := by
  unfold checkin_ticket at h
  cases hfind : findTicketWithFlight db tid with
  | none => rw [hfind] at h; simp at h
  | some bv =>
    obtain ⟨b, v⟩ := bv
    rw [hfind] at h
    cases hseat : b.lugar with
    | some s => simp [hseat] at h
    | none =>
      simp only [hseat] at h
      by_cases ht : v.hora_partida ≤ dbNow
      · rw [if_pos ht] at h; simp at h
      · rw [if_neg ht] at h
        cases hsel : sql_find_seat db v.no_serie b.prim_classe b.voo_id with
        | none => simp [hsel] at h
        | some a =>
          simp only [hsel, Prod.mk.injEq, Except.ok.injEq] at h
          obtain ⟨hdb2, hr⟩ := h
          exact ⟨b, v, a, rfl, hseat, not_le.mp ht, hsel, hr.symm, hdb2.symm⟩

/-- The ticket update of a successful check-in preserves every ticket id,
so the `WHERE b.id = %s` lookup still finds the same (now updated) row. -/
theorem find?_map_update (l : List Bilhete) (tid : Nat) (f : Bilhete → Bilhete)
    (hf : ∀ x, (f x).id = x.id) :
    List.find? (fun x => x.id == tid) (l.map f) =
      (List.find? (fun x => x.id == tid) l).map f := by
  rw [List.find?_map]
  have hfun : ((fun x : Bilhete => x.id == tid) ∘ f) = (fun x : Bilhete => x.id == tid) := by
    funext x
    simp [Function.comp, hf x]
  rw [hfun]

/-! ### Claim C4 -/

/-- Claim C4: check-in on a ticket whose seat is already non-null fails
with Conflict reporting that seat and changes nothing; consequently a
second check-in right after a successful one returns Conflict naming the
seat the first call assigned, whatever the clock now reads. -/
theorem checkin_idempotent (db : DB) (dbNow dbNow2 : Int) (tid : Nat) :
    (∀ b v s, findTicketWithFlight db tid = some (b, v) → b.lugar = some s →
      checkin_ticket db dbNow tid = (db, .error (.alreadyCheckedIn s))) ∧
    (∀ db2 r, checkin_ticket db dbNow tid = (db2, .ok r) →
      checkin_ticket db2 dbNow2 tid = (db2, .error (.alreadyCheckedIn r.lugar_atribuido))) := by
  constructor
  · intro b v s hfind hseat
    unfold checkin_ticket
    rw [hfind]
    simp only [hseat]
  · intro db2 r h
    obtain ⟨b, v, a, hfind, hseat, ht, hsel, hr, hdb2⟩ := checkin_success_inv db dbNow tid db2 r h
    obtain ⟨hfb, hfv⟩ := findTicketWithFlight_inv db tid b v hfind
    have hbid := List.find?_some hfb
    have hupd : db2.bilhetes.find? (fun x => x.id == tid) =
        some { b with lugar := some a.lugar, no_serie := some v.no_serie } := by
      rw [hdb2]
      show (db.bilhetes.map (fun x =>
          if x.id == tid then { x with lugar := some a.lugar, no_serie := some v.no_serie }
          else x)).find? (fun x => x.id == tid) = _
      rw [find?_map_update db.bilhetes tid _ (fun x => by
        by_cases hx : (x.id == tid) = true <;> simp [hx])]
      rw [hfb]
      show some (if (b.id == tid) = true then
          { b with lugar := some a.lugar, no_serie := some v.no_serie } else b) = _
      rw [if_pos hbid]
    have hvoos : db2.voos = db.voos := by rw [hdb2]
    have hfind2 : findTicketWithFlight db2 tid =
        some ({ b with lugar := some a.lugar, no_serie := some v.no_serie }, v) := by
      unfold findTicketWithFlight
      rw [hupd]
      simp only [hvoos]
      simp only [hfv]
    unfold checkin_ticket
    rw [hfind2]
    simp only [hr]

/-- A ticket that already has a seat. -/
def exBilheteAssigned : Bilhete := ⟨1, 1, 1, "Ana", 150, false, some "3C", some "P1"⟩

/-- `dbCanon` with the ticket already checked in at seat `"3C"`. -/
def dbAssigned : DB := { dbCanon with bilhetes := [exBilheteAssigned] }

/-- `dbCanon` after the successful check-in assigned seat `"1A"`. -/
def dbCanonAfter : DB :=
  { dbCanon with bilhetes := [⟨1, 1, 1, "Ana", 150, false, some "1A", some "P1"⟩] }

/-- Witness for C4: a ticket holding seat `"3C"` is rejected with that
seat, and re-running the check-in that assigned `"1A"` (now after
departure, clock 999 > 100) reports Conflict naming `"1A"`. -/
theorem checkin_idempotent_witness :
    checkin_ticket dbAssigned 0 1 = (dbAssigned, .error (.alreadyCheckedIn "3C")) ∧
    checkin_ticket dbCanonAfter 999 1 = (dbCanonAfter, .error (.alreadyCheckedIn "1A")) :=
  ⟨(checkin_idempotent dbAssigned 0 0 1).1 exBilheteAssigned exVoo "3C" (by decide) rfl,
   (checkin_idempotent dbCanon 0 999 1).2 dbCanonAfter ⟨1, "1A", "P1"⟩ (by decide)⟩

/-! ### Claim C10 -/

/-- The row update a successful check-in applies to the ticket table. -/
def updBilhete (tid : Nat) (seat ns : String) (x : Bilhete) : Bilhete :=
  if x.id == tid then { x with lugar := some seat, no_serie := some ns } else x

/-- Claim C10: a successful check-in changes only the ticket table, by
mapping the update that sets the target ticket's seat label and aircraft
serial and leaves every other ticket and every other field untouched; the
payload echoes the ticket id, the written seat and the flight's aircraft
serial, and the seat is the one the seat query chose. -/
theorem checkin_frame (db : DB) (dbNow : Int) (tid : Nat) (db2 : DB) (r : CheckinOk)
    (h : checkin_ticket db dbNow tid = (db2, .ok r)) :
    db2.aeroportos = db.aeroportos ∧
    db2.avioes = db.avioes ∧
    db2.assentos = db.assentos ∧
    db2.voos = db.voos ∧
    db2.vendas = db.vendas ∧
    db2.next_codigo_reserva = db.next_codigo_reserva ∧
    db2.next_bilhete_id = db.next_bilhete_id ∧
    r.bilhete_id = tid ∧
    (∃ b v, findTicketWithFlight db tid = some (b, v) ∧
      r.aviao_no_serie = v.no_serie ∧
      (∃ a, sql_find_seat db v.no_serie b.prim_classe b.voo_id = some a ∧
        a.lugar = r.lugar_atribuido)) ∧
    db2.bilhetes = db.bilhetes.map (updBilhete tid r.lugar_atribuido r.aviao_no_serie) ∧
    (∀ x : Bilhete, x.id ≠ tid → updBilhete tid r.lugar_atribuido r.aviao_no_serie x = x) ∧
    (∀ x : Bilhete,
      (updBilhete tid r.lugar_atribuido r.aviao_no_serie x).id = x.id ∧
      (updBilhete tid r.lugar_atribuido r.aviao_no_serie x).voo_id = x.voo_id ∧
      (updBilhete tid r.lugar_atribuido r.aviao_no_serie x).codigo_reserva = x.codigo_reserva ∧
      (updBilhete tid r.lugar_atribuido r.aviao_no_serie x).nome_passegeiro = x.nome_passegeiro ∧
      (updBilhete tid r.lugar_atribuido r.aviao_no_serie x).preco = x.preco ∧
      (updBilhete tid r.lugar_atribuido r.aviao_no_serie x).prim_classe = x.prim_classe) ∧
    (∀ x : Bilhete, x.id = tid →
      (updBilhete tid r.lugar_atribuido r.aviao_no_serie x).lugar = some r.lugar_atribuido ∧
      (updBilhete tid r.lugar_atribuido r.aviao_no_serie x).no_serie = some r.aviao_no_serie) := by
  obtain ⟨b, v, a, hfind, hseat, ht, hsel, hr, hdb2⟩ := checkin_success_inv db dbNow tid db2 r h
  subst hr
  subst hdb2
  refine ⟨rfl, rfl, rfl, rfl, rfl, rfl, rfl, rfl,
    ⟨b, v, hfind, rfl, a, hsel, rfl⟩, ?_, ?_, ?_, ?_⟩
  · rfl
  · intro x hx
    have hx2 : (x.id == tid) = false := by simp [hx]
    simp [updBilhete, hx2]
  · intro x
    by_cases hx : (x.id == tid) = true <;> simp [updBilhete, hx]
  · intro x hx
    have hx2 : (x.id == tid) = true := by simp [hx]
    simp [updBilhete, hx2]

/-- Witness for C10: the successful check-in on `dbCanon` produces exactly
`dbCanonAfter`, whose ticket table is the update map and whose other
tables are untouched. -/
theorem checkin_frame_witness :
    dbCanonAfter.voos = dbCanon.voos ∧
    dbCanonAfter.bilhetes = dbCanon.bilhetes.map (updBilhete 1 "1A" "P1") :=
  ⟨(checkin_frame dbCanon 0 1 dbCanonAfter ⟨1, "1A", "P1"⟩ (by decide)).2.2.2.1,
   (checkin_frame dbCanon 0 1 dbCanonAfter ⟨1, "1A", "P1"⟩
     (by decide)).2.2.2.2.2.2.2.2.2.1⟩

/-! ### Inversion lemmas for the purchase handler -/

/-- What a ticket-entry passing validation looks like. -/
theorem entryOk_inv (j : JEntry) (t : TicketReq) (h : entryOk j = some t) :
    ∃ ofields nome pc, j = .obj ofields ∧
      jlookup ofields "nome_passageiro" = some (.jstr nome) ∧
      pyStripEmpty nome = false ∧
      jlookup ofields "prim_classe" = some (.jbool pc) := by
  cases j with
  | notObj => simp [entryOk] at h
  | obj ofields =>
    cases h1 : jlookup ofields "nome_passageiro" with
    | none => simp [entryOk, h1] at h
    | some jn =>
      cases jn with
      | null => simp [entryOk, h1] at h
      | jbool b => simp [entryOk, h1] at h
      | jnum n => simp [entryOk, h1] at h
      | comp => simp [entryOk, h1] at h
      | jstr nome =>
        cases h2 : jlookup ofields "prim_classe" with
        | none => simp [entryOk, h1, h2] at h
        | some jp =>
          cases jp with
          | null => simp [entryOk, h1, h2] at h
          | jstr s => simp [entryOk, h1, h2] at h
          | jnum n => simp [entryOk, h1, h2] at h
          | comp => simp [entryOk, h1, h2] at h
          | jbool pc =>
            by_cases hblank : pyStripEmpty nome = true
            · simp [entryOk, h1, h2, hblank] at h
            · exact ⟨ofields, nome, pc, rfl, h1, by simpa using hblank, h2⟩

theorem checkEntries_ok :
    ∀ (i : Nat) (l : List JEntry) (ts : List TicketReq), checkEntries i l = .ok ts →
      ∀ j ∈ l, ∃ ofields nome pc, j = .obj ofields ∧
        jlookup ofields "nome_passageiro" = some (.jstr nome) ∧
        pyStripEmpty nome = false ∧
        jlookup ofields "prim_classe" = some (.jbool pc) := by
  intro i l
  induction l generalizing i with
  | nil => intro ts _ j hj; exact absurd hj (List.not_mem_nil j)
  | cons e rest ih =>
    intro ts h j hj
    unfold checkEntries at h
    cases hE : entryOk e with
    | none => rw [hE] at h; simp at h
    | some t =>
      rw [hE] at h
      cases hrec : checkEntries (i + 1) rest with
      | error e2 => simp [hrec] at h
      | ok ts2 =>
        rcases List.mem_cons.mp hj with he | hrest
        · exact he ▸ entryOk_inv e t hE
        · exact ih (i + 1) ts2 hrec j hrest

/-- The claim-side description of a well-formed purchase request body:
9-digit string tax id, non-empty ticket array, each entry an object with a
non-blank passenger name and a boolean cabin flag. -/
def ValidPurchaseBody (data : Body) : Prop :=
  ∃ fields nif entries,
    data = some fields ∧
    jlookup fields "nif_cliente" = some (.jstr nif) ∧
    nif.length = 9 ∧
    (∀ c ∈ nif.data, c.isDigit = true) ∧
    jlookup fields "bilhetes_a_comprar" = some (.jarr entries) ∧
    entries ≠ [] ∧
    ∀ j ∈ entries, ∃ ofields nome pc, j = .obj ofields ∧
      jlookup ofields "nome_passageiro" = some (.jstr nome) ∧
      pyStripEmpty nome = false ∧
      jlookup ofields "prim_classe" = some (.jbool pc)

/-- A body that passes the handler's validation is valid in the claim's
sense. -/
theorem validateBody_ok_valid (data : Body) (nif : String) (reqs : List TicketReq)
    (h : validateBody data = .ok (nif, reqs)) : ValidPurchaseBody data := by
  cases data with
  | none => simp [validateBody] at h
  | some fields =>
    simp only [validateBody] at h
    split at h
    · simp at h
    · split at h
      · rename_i s hn
        split at h
        · rename_i hok
          split at h
          · rename_i entries hb
            split at h
            · simp at h
            · rename_i hle
              split at h
              · simp at h
              · rename_i ts hck
                simp only [Except.ok.injEq, Prod.mk.injEq] at h
                obtain ⟨hs, _⟩ := h
                subst hs
                obtain ⟨hlen, hdig⟩ := Bool.and_eq_true_iff.mp hok
                refine ⟨fields, s, entries, rfl, hn, ?_, ?_, hb, ?_, ?_⟩
                · exact beq_iff_eq.mp hlen
                · intro c hc
                  have hall := (Bool.and_eq_true_iff.mp hdig).2
                  exact List.all_eq_true.mp hall c hc
                · intro he
                  rw [he] at hle
                  exact hle rfl
                · exact checkEntries_ok 0 entries ts hck
          · simp at h
        · simp at h
      · simp at h

/-- The per-ticket insert loop appends exactly one seat-less row per
request when it succeeds. -/
theorem insertBilhetes_spec (vooId res : Nat) (ns : String) :
    ∀ (reqs : List TicketReq) (bs : List Bilhete) (nid : Nat)
      (bs2 : List Bilhete) (dets : List BilheteDet),
      insertBilhetes vooId res ns bs nid reqs = some (bs2, dets) →
      ∃ newTickets, bs2 = bs ++ newTickets ∧
        newTickets.length = reqs.length ∧
        dets.length = reqs.length ∧
        ∀ t ∈ newTickets, t.lugar = none ∧ t.voo_id = vooId ∧
          t.codigo_reserva = res ∧ t.no_serie = some ns := by
  intro reqs
  induction reqs with
  | nil =>
    intro bs nid bs2 dets h
    unfold insertBilhetes at h
    simp only [Option.some.injEq, Prod.mk.injEq] at h
    obtain ⟨h1, h2⟩ := h
    exact ⟨[], by simp [h1.symm], rfl, by simp [h2.symm], fun t ht => absurd ht (List.not_mem_nil t)⟩
  | cons t ts ih =>
    intro bs nid bs2 dets h
    unfold insertBilhetes at h
    cases hdup : dupTicket bs vooId res t.nome_passageiro with
    | true => rw [hdup] at h; simp at h
    | false =>
      rw [hdup] at h
      simp only [Bool.false_eq_true, if_false] at h
      cases hrec : insertBilhetes vooId res ns
          (bs ++ [⟨nid, vooId, res, t.nome_passageiro, precoFor t.prim_classe,
                   t.prim_classe, none, some ns⟩]) (nid + 1) ts with
      | none => rw [hrec] at h; simp at h
      | some p =>
        obtain ⟨bs3, dets3⟩ := p
        rw [hrec] at h
        simp only [Option.some.injEq, Prod.mk.injEq] at h
        obtain ⟨hbs, hdets⟩ := h
        obtain ⟨nt, hnt, hlen, hdlen, hall⟩ := ih _ (nid + 1) bs3 dets3 hrec
        refine ⟨⟨nid, vooId, res, t.nome_passageiro, precoFor t.prim_classe,
                 t.prim_classe, none, some ns⟩ :: nt, ?_, ?_, ?_, ?_⟩
        · rw [← hbs, hnt, List.append_assoc]
          rfl
        · simp [hlen]
        · rw [← hdets]
          simp [hdlen]
        · intro x hx
          rcases List.mem_cons.mp hx with he | hx2
          · subst he
            exact ⟨rfl, rfl, rfl, rfl⟩
          · exact hall x hx2

/-- Inversion of a successful purchase: the branch conditions it passed
and the exact final state and payload. -/
theorem purchase_success_inv (db : DB) (dbNow : Int) (vooId : Nat) (data : Body)
    (db2 : DB) (res : PurchaseOk)
    (h : purchase_tickets db dbNow vooId data = (db2, .ok res)) :
    ∃ nif reqs voo bs2 dets,
      validateBody data = .ok (nif, reqs) ∧
      db.voos.find? (fun v => v.id == vooId) = some voo ∧
      dbNow < voo.hora_partida ∧
      insertBilhetes vooId db.next_codigo_reserva voo.no_serie
        db.bilhetes db.next_bilhete_id reqs = some (bs2, dets) ∧
      res = ⟨db.next_codigo_reserva, dets⟩ ∧
      db2 = { db with
        vendas := db.vendas ++ [⟨db.next_codigo_reserva, nif, voo.partida, dbNow⟩],
        bilhetes := bs2,
        next_codigo_reserva := db.next_codigo_reserva + 1,
        next_bilhete_id := db.next_bilhete_id + reqs.length } := by
  unfold purchase_tickets at h
  split at h
  · simp at h
  · rename_i nif reqs hval
    split at h
    · simp at h
    · rename_i voo hvoo
      split at h
      · simp at h
      · rename_i ht
        split at h
        · simp at h
        · rename_i bs2 dets hins
          simp only [Prod.mk.injEq, Except.ok.injEq] at h
          obtain ⟨hdb2, hres⟩ := h
          exact ⟨nif, reqs, voo, bs2, dets, hval, hvoo, not_le.mp ht, hins,
            hres.symm, hdb2.symm⟩

/-- Every failing purchase leaves the state unchanged. -/
theorem purchase_cases (db : DB) (dbNow : Int) (vooId : Nat) (data : Body) :
    (∃ e, purchase_tickets db dbNow vooId data = (db, .error e)) ∨
    (∃ res, (purchase_tickets db dbNow vooId data).2 = .ok res) := by
  unfold purchase_tickets
  split
  · exact Or.inl ⟨_, rfl⟩
  · split
    · exact Or.inl ⟨_, rfl⟩
    · split
      · exact Or.inl ⟨_, rfl⟩
      · split
        · exact Or.inl ⟨_, rfl⟩
        · exact Or.inr ⟨_, rfl⟩

/-! ### Claim C2 -/

/-- Claim C2: for a valid purchase request on an existing flight, if the
storage engine's canonical now is at or past the departure time the
operation fails with Conflict (409) writing nothing; otherwise the cutoff
check never produces that failure. -/
theorem purchase_cutoff (db : DB) (dbNow : Int) (vooId : Nat) (data : Body)
    (nif : String) (reqs : List TicketReq) (voo : Voo)
    (hval : validateBody data = .ok (nif, reqs))
    (hvoo : db.voos.find? (fun v => v.id == vooId) = some voo) :
    (voo.hora_partida ≤ dbNow →
      purchase_tickets db dbNow vooId data = (db, .error .saleClosed) ∧
      purchaseHttp .saleClosed = 409) ∧
    (dbNow < voo.hora_partida →
      (purchase_tickets db dbNow vooId data).2 ≠ .error .saleClosed) := by
  constructor
  · intro ht
    refine ⟨?_, rfl⟩
    unfold purchase_tickets
    rw [hval]
    simp only [hvoo]
    rw [if_pos ht]
  · intro ht hcon
    unfold purchase_tickets at hcon
    rw [hval] at hcon
    simp only [hvoo] at hcon
    rw [if_neg (not_le.mpr ht)] at hcon
    cases hins : insertBilhetes vooId db.next_codigo_reserva voo.no_serie
        db.bilhetes db.next_bilhete_id reqs with
    | none => rw [hins] at hcon; simp at hcon
    | some p =>
      obtain ⟨bs2, dets⟩ := p
      rw [hins] at hcon
      simp at hcon

/-- A well-formed one-ticket purchase request body. -/
def exBody : Body :=
  some [("nif_cliente", JVal.jstr "123456789"),
        ("bilhetes_a_comprar", JVal.jarr
          [JEntry.obj [("nome_passageiro", JField.jstr "Ana Silva"),
                       ("prim_classe", JField.jbool false)]])]

/-- Witness for C2 at the boundary: canonical now equal to the departure
time (100) is already closed. -/
theorem purchase_cutoff_witness :
    (purchase_tickets dbCanon 100 1 exBody = (dbCanon, .error .saleClosed) ∧
      purchaseHttp .saleClosed = 409) :=
  (purchase_cutoff dbCanon 100 1 exBody "123456789" [⟨"Ana Silva", false⟩] exVoo
    (by decide) (by decide)).1 (by decide)

/-! ### Claim C3 -/

/-- Claim C3: purchase is all-or-nothing.  On any failure the returned
state is the original one; on success exactly one Sale row is appended —
stamped with the canonical now, the client tax id and the flight's
departure airport — the generated reservation code is returned, and
exactly one seat-less Ticket row per requested entry is appended, every
other table left unchanged. -/
theorem purchase_atomic (db : DB) (dbNow : Int) (vooId : Nat) (data : Body) :
    (∀ e, (purchase_tickets db dbNow vooId data).2 = .error e →
      (purchase_tickets db dbNow vooId data).1 = db) ∧
    (∀ res, (purchase_tickets db dbNow vooId data).2 = .ok res →
      ∃ nif reqs voo,
        validateBody data = .ok (nif, reqs) ∧
        db.voos.find? (fun v => v.id == vooId) = some voo ∧
        dbNow < voo.hora_partida ∧
        res.codigo_reserva = db.next_codigo_reserva ∧
        (purchase_tickets db dbNow vooId data).1.vendas =
          db.vendas ++ [⟨db.next_codigo_reserva, nif, voo.partida, dbNow⟩] ∧
        (∃ newTickets,
          (purchase_tickets db dbNow vooId data).1.bilhetes = db.bilhetes ++ newTickets ∧
          newTickets.length = reqs.length ∧
          ∀ t ∈ newTickets, t.lugar = none ∧ t.voo_id = vooId ∧
            t.codigo_reserva = db.next_codigo_reserva ∧ t.no_serie = some voo.no_serie) ∧
        res.bilhetes_comprados.length = reqs.length ∧
        (purchase_tickets db dbNow vooId data).1.aeroportos = db.aeroportos ∧
        (purchase_tickets db dbNow vooId data).1.avioes = db.avioes ∧
        (purchase_tickets db dbNow vooId data).1.assentos = db.assentos ∧
        (purchase_tickets db dbNow vooId data).1.voos = db.voos) := by
  constructor
  · intro e h
    rcases purchase_cases db dbNow vooId data with ⟨e2, heq⟩ | ⟨res, hok⟩
    · rw [heq]
    · rw [h] at hok
      simp at hok
  · intro res h
    have hp : purchase_tickets db dbNow vooId data =
        ((purchase_tickets db dbNow vooId data).1, .ok res) := by
      rw [← h]
    obtain ⟨nif, reqs, voo, bs2, dets, hval, hvoo, ht, hins, hres, hdb2⟩ :=
      purchase_success_inv db dbNow vooId data _ res hp
    obtain ⟨nt, hnt, hlen, hdlen, hall⟩ :=
      insertBilhetes_spec vooId db.next_codigo_reserva voo.no_serie reqs
        db.bilhetes db.next_bilhete_id bs2 dets hins
    refine ⟨nif, reqs, voo, hval, hvoo, ht, ?_, ?_, ⟨nt, ?_, hlen, ?_⟩, ?_, ?_, ?_, ?_, ?_⟩
    · rw [hres]
    · rw [hdb2]
    · rw [hdb2]
      exact hnt
    · intro t htm
      exact hall t htm
    · rw [hres]
      exact hdlen
    · rw [hdb2]
    · rw [hdb2]
    · rw [hdb2]
    · rw [hdb2]

/-- Witness for C3 at a concrete successful purchase on `dbCanon`. -/
theorem purchase_atomic_witness :
    (purchase_tickets dbCanon 0 1 exBody).2 =
      .ok ⟨2, [⟨2, "Ana Silva", false, 150⟩]⟩ ∧
    (∃ nif reqs voo,
      validateBody exBody = .ok (nif, reqs) ∧
      dbCanon.voos.find? (fun v => v.id == 1) = some voo ∧
      (0 : Int) < voo.hora_partida ∧
      (⟨2, [⟨2, "Ana Silva", false, 150⟩]⟩ : PurchaseOk).codigo_reserva =
        dbCanon.next_codigo_reserva ∧
      (purchase_tickets dbCanon 0 1 exBody).1.vendas =
        dbCanon.vendas ++ [⟨dbCanon.next_codigo_reserva, nif, voo.partida, 0⟩] ∧
      (∃ newTickets,
        (purchase_tickets dbCanon 0 1 exBody).1.bilhetes = dbCanon.bilhetes ++ newTickets ∧
        newTickets.length = reqs.length ∧
        ∀ t ∈ newTickets, t.lugar = none ∧ t.voo_id = 1 ∧
          t.codigo_reserva = dbCanon.next_codigo_reserva ∧ t.no_serie = some voo.no_serie) ∧
      (⟨2, [⟨2, "Ana Silva", false, 150⟩]⟩ : PurchaseOk).bilhetes_comprados.length =
        reqs.length ∧
      (purchase_tickets dbCanon 0 1 exBody).1.aeroportos = dbCanon.aeroportos ∧
      (purchase_tickets dbCanon 0 1 exBody).1.avioes = dbCanon.avioes ∧
      (purchase_tickets dbCanon 0 1 exBody).1.assentos = dbCanon.assentos ∧
      (purchase_tickets dbCanon 0 1 exBody).1.voos = dbCanon.voos) :=
  ⟨by decide,
   (purchase_atomic dbCanon 0 1 exBody).2 ⟨2, [⟨2, "Ana Silva", false, 150⟩]⟩ (by decide)⟩

/-! ### Claim C6 -/

/-- Claim C6: a purchase request that is invalid — tax id not a 9-digit
string, ticket list missing or empty, or some entry without a non-blank
passenger name or boolean cabin flag — fails with a 400 validation error
whose value does not depend on the stored state, and the state is
returned untouched: validation happens before the transaction. -/
theorem purchase_validation (data : Body) (h : ¬ValidPurchaseBody data) :
    ∃ e, purchaseHttp (.invalid e) = 400 ∧
      ∀ (db : DB) (dbNow : Int) (vooId : Nat),
        purchase_tickets db dbNow vooId data = (db, .error (.invalid e)) := by
  cases hval : validateBody data with
  | ok p =>
    obtain ⟨nif, reqs⟩ := p
    exact absurd (validateBody_ok_valid data nif reqs hval) h
  | error e =>
    refine ⟨e, rfl, ?_⟩
    intro db dbNow vooId
    unfold purchase_tickets
    rw [hval]

/-- Witness for C6 at the concrete invalid body `none` (missing JSON). -/
theorem purchase_validation_witness :
    ∃ e, purchaseHttp (.invalid e) = 400 ∧
      ∀ (db : DB) (dbNow : Int) (vooId : Nat),
        purchase_tickets db dbNow vooId none = (db, .error (.invalid e)) :=
  purchase_validation none (by
    intro hv
    obtain ⟨fields, nif, entries, h1, _⟩ := hv
    exact Option.noConfusion h1)

/-! ### Claim C5 -/

/-- The claim's "future flight on the route": right departure and arrival
airports, departing strictly after now. -/
def RouteFuture (now : Int) (pu cu : String) (v : Voo) : Prop :=
  v.partida = pu ∧ v.chegada = cu ∧ now < v.hora_partida

/-- The claim's "available flight": a future flight on the route whose
aircraft has more configured seats than tickets issued for the flight
(tickets counted regardless of seat assignment). -/
def RouteAvailable (db : DB) (now : Int) (pu cu : String) (v : Voo) : Prop :=
  RouteFuture now pu cu v ∧ ticketCount db v.id < seatCount db v.no_serie

/-- Claim C5: for distinct existing airports, the route query answers
"no flights" exactly when no future flight serves the route, "all full"
exactly when some future flight exists but none has spare capacity, and
otherwise returns a non-empty list of at most 3 available flights sorted
by departure time, containing every available flight unless the cap of 3
was reached with earlier-departing ones.  (`hFK`: every flight's aircraft
serial references an existing aircraft, the schema's foreign key.) -/
theorem next_available_spec (db : DB) (now : Int) (partida chegada : String)
    (hlen1 : (pyUpper partida).length = 3) (hup1 : pyIsUpper (pyUpper partida) = true)
    (hlen2 : (pyUpper chegada).length = 3) (hup2 : pyIsUpper (pyUpper chegada) = true)
    (hne : pyUpper partida ≠ pyUpper chegada)
    (hex1 : db.aeroportos.any (fun a => a.codigo == pyUpper partida) = true)
    (hex2 : db.aeroportos.any (fun a => a.codigo == pyUpper chegada) = true)
    (hFK : ∀ v ∈ db.voos, db.avioes.any (fun av => av.no_serie == v.no_serie) = true) :
    (list_next_available_flights db now partida chegada = .ok .noFlights ↔
      ∀ v ∈ db.voos, ¬RouteFuture now (pyUpper partida) (pyUpper chegada) v) ∧
    (list_next_available_flights db now partida chegada = .ok .allFull ↔
      ((∃ v ∈ db.voos, RouteFuture now (pyUpper partida) (pyUpper chegada) v) ∧
        ∀ v ∈ db.voos, ¬RouteAvailable db now (pyUpper partida) (pyUpper chegada) v)) ∧
    (∀ l, list_next_available_flights db now partida chegada = .ok (.available l) →
      l ≠ [] ∧ l.length ≤ 3 ∧ List.Sorted vooLe l ∧
      (∀ v ∈ l, v ∈ db.voos ∧ RouteAvailable db now (pyUpper partida) (pyUpper chegada) v) ∧
      (∀ v ∈ db.voos, RouteAvailable db now (pyUpper partida) (pyUpper chegada) v → v ∉ l →
        l.length = 3 ∧ ∀ u ∈ l, u.hora_partida ≤ v.hora_partida)) := by
  have hpred : ∀ v : Voo,
      ((v.partida == pyUpper partida && v.chegada == pyUpper chegada &&
        decide (now < v.hora_partida)) = true) ↔
        RouteFuture now (pyUpper partida) (pyUpper chegada) v := by
    intro v
    simp [RouteFuture, Bool.and_eq_true, beq_iff_eq, decide_eq_true_eq, and_assoc]
  have hpredA : ∀ v ∈ db.voos,
      ((v.partida == pyUpper partida && v.chegada == pyUpper chegada &&
        decide (now < v.hora_partida) &&
        db.avioes.any (fun av => av.no_serie == v.no_serie) &&
        decide (ticketCount db v.id < seatCount db v.no_serie)) = true) ↔
        RouteAvailable db now (pyUpper partida) (pyUpper chegada) v := by
    intro v hv
    simp [RouteAvailable, RouteFuture, Bool.and_eq_true, beq_iff_eq,
      decide_eq_true_eq, hFK v hv, and_assoc]
  have hAllNil : routeAll db now (pyUpper partida) (pyUpper chegada) = [] ↔
      ∀ v ∈ db.voos, ¬RouteFuture now (pyUpper partida) (pyUpper chegada) v := by
    unfold routeAll
    rw [List.filter_eq_nil_iff]
    constructor
    · intro h v hv hP
      exact h v hv ((hpred v).mpr hP)
    · intro h v hv hp
      exact h v hv ((hpred v).mp hp)
  have hAvailNil : routeAvail db now (pyUpper partida) (pyUpper chegada) = [] ↔
      ∀ v ∈ db.voos, ¬RouteAvailable db now (pyUpper partida) (pyUpper chegada) v := by
    unfold routeAvail
    rw [List.filter_eq_nil_iff]
    constructor
    · intro h v hv hP
      exact h v hv ((hpredA v hv).mpr hP)
    · intro h v hv hp
      exact h v hv ((hpredA v hv).mp hp)
  have hmemAvail : ∀ v : Voo, v ∈ routeAvail db now (pyUpper partida) (pyUpper chegada) ↔
      (v ∈ db.voos ∧ RouteAvailable db now (pyUpper partida) (pyUpper chegada) v) := by
    intro v
    unfold routeAvail
    rw [List.mem_filter]
    constructor
    · rintro ⟨hv, hp⟩
      exact ⟨hv, (hpredA v hv).mp hp⟩
    · rintro ⟨hv, hP⟩
      exact ⟨hv, (hpredA v hv).mpr hP⟩
  have hred : list_next_available_flights db now partida chegada =
      (if (routeAll db now (pyUpper partida) (pyUpper chegada)).isEmpty then
        Except.ok RouteResp.noFlights
       else if ((List.insertionSort vooLe
          (routeAvail db now (pyUpper partida) (pyUpper chegada))).take 3).isEmpty then
        Except.ok RouteResp.allFull
       else
        Except.ok (RouteResp.available ((List.insertionSort vooLe
          (routeAvail db now (pyUpper partida) (pyUpper chegada))).take 3))) := by
    show (if !((pyUpper partida).length == 3 && pyIsUpper (pyUpper partida) &&
            (pyUpper chegada).length == 3 && pyIsUpper (pyUpper chegada)) then
          Except.error RouteErr.badFormat
        else if pyUpper partida == pyUpper chegada then
          Except.error RouteErr.sameAirports
        else if !(db.aeroportos.any fun a => a.codigo == pyUpper partida) ||
            !(db.aeroportos.any fun a => a.codigo == pyUpper chegada) then
          Except.error RouteErr.unknownAirport
        else if (routeAll db now (pyUpper partida) (pyUpper chegada)).isEmpty then
          Except.ok RouteResp.noFlights
        else if ((List.insertionSort vooLe
            (routeAvail db now (pyUpper partida) (pyUpper chegada))).take 3).isEmpty then
          Except.ok RouteResp.allFull
        else
          Except.ok (RouteResp.available ((List.insertionSort vooLe
            (routeAvail db now (pyUpper partida) (pyUpper chegada))).take 3))) = _
    rw [if_neg (by simp [hlen1, hup1, hlen2, hup2]), if_neg (by simp [hne]),
      if_neg (by simp [hex1, hex2])]
  refine ⟨?_, ?_, ?_⟩
  · rw [hred]
    by_cases hA : (routeAll db now (pyUpper partida) (pyUpper chegada)).isEmpty = true
    · rw [if_pos hA]
      constructor
      · intro _
        exact hAllNil.mp (List.isEmpty_iff.mp hA)
      · intro _
        rfl
    · rw [if_neg hA]
      constructor
      · intro hcon
        by_cases hB : ((List.insertionSort vooLe
            (routeAvail db now (pyUpper partida) (pyUpper chegada))).take 3).isEmpty = true
        · rw [if_pos hB] at hcon
          exact absurd hcon (by simp)
        · rw [if_neg hB] at hcon
          exact absurd hcon (by simp)
      · intro hall
        exact absurd (List.isEmpty_iff.mpr (hAllNil.mpr hall)) hA
  · rw [hred]
    by_cases hA : (routeAll db now (pyUpper partida) (pyUpper chegada)).isEmpty = true
    · rw [if_pos hA]
      constructor
      · intro hcon
        exact absurd hcon (by simp)
      · rintro ⟨⟨v, hv, hP⟩, _⟩
        exact absurd hP (hAllNil.mp (List.isEmpty_iff.mp hA) v hv)
    · rw [if_neg hA]
      by_cases hB : ((List.insertionSort vooLe
          (routeAvail db now (pyUpper partida) (pyUpper chegada))).take 3).isEmpty = true
      · rw [if_pos hB]
        constructor
        · intro _
          have hnil : routeAvail db now (pyUpper partida) (pyUpper chegada) = [] := by
            rcases List.take_eq_nil_iff.mp (List.isEmpty_iff.mp hB) with h3 | hsortnil
            · exact absurd h3 (by omega)
            · have hlen0 : (routeAvail db now (pyUpper partida) (pyUpper chegada)).length = 0 := by
                rw [← List.length_insertionSort vooLe
                  (routeAvail db now (pyUpper partida) (pyUpper chegada)), hsortnil]
                rfl
              exact List.length_eq_zero.mp hlen0
          refine ⟨?_, hAvailNil.mp hnil⟩
          have hne2 : routeAll db now (pyUpper partida) (pyUpper chegada) ≠ [] :=
            fun hcontra => hA (List.isEmpty_iff.mpr hcontra)
          obtain ⟨v, hv⟩ := List.exists_mem_of_ne_nil _ hne2
          unfold routeAll at hv
          rw [List.mem_filter] at hv
          exact ⟨v, hv.1, (hpred v).mp hv.2⟩
        · intro _
          rfl
      · rw [if_neg hB]
        constructor
        · intro hcon
          exact absurd hcon (by simp)
        · rintro ⟨_, hnone⟩
          have hnil := hAvailNil.mpr hnone
          have hB2 : ((List.insertionSort vooLe
              (routeAvail db now (pyUpper partida) (pyUpper chegada))).take 3).isEmpty = true := by
            rw [hnil]
            rfl
          exact absurd hB2 hB
  · intro l hl
    rw [hred] at hl
    by_cases hA : (routeAll db now (pyUpper partida) (pyUpper chegada)).isEmpty = true
    · rw [if_pos hA] at hl
      simp at hl
    · rw [if_neg hA] at hl
      by_cases hB : ((List.insertionSort vooLe
          (routeAvail db now (pyUpper partida) (pyUpper chegada))).take 3).isEmpty = true
      · rw [if_pos hB] at hl
        simp at hl
      · rw [if_neg hB] at hl
        simp only [Except.ok.injEq, RouteResp.available.injEq] at hl
        have hleq : l = (List.insertionSort vooLe
            (routeAvail db now (pyUpper partida) (pyUpper chegada))).take 3 := hl.symm
        refine ⟨?_, ?_, ?_, ?_, ?_⟩
        · intro hcon
          exact hB (List.isEmpty_iff.mpr (hleq.symm.trans hcon))
        · rw [hleq, List.length_take]
          exact Nat.min_le_left 3 _
        · rw [hleq]
          exact List.Pairwise.sublist (List.take_sublist 3 _)
            (List.sorted_insertionSort vooLe _)
        · intro v hv
          rw [hleq] at hv
          exact (hmemAvail v).mp
            ((List.perm_insertionSort vooLe _).mem_iff.mp ((List.take_sublist 3 _).subset hv))
        · intro v hvoos hAv hnotin
          have hvfilter : v ∈ routeAvail db now (pyUpper partida) (pyUpper chegada) :=
            (hmemAvail v).mpr ⟨hvoos, hAv⟩
          have hvs : v ∈ List.insertionSort vooLe
              (routeAvail db now (pyUpper partida) (pyUpper chegada)) :=
            (List.perm_insertionSort vooLe _).mem_iff.mpr hvfilter
          have hvdrop : v ∈ (List.insertionSort vooLe
              (routeAvail db now (pyUpper partida) (pyUpper chegada))).drop 3 := by
            rcases List.mem_append.mp (by
                rw [List.take_append_drop 3 (List.insertionSort vooLe
                  (routeAvail db now (pyUpper partida) (pyUpper chegada)))]
                exact hvs) with h1 | h2
            · rw [← hleq] at h1
              exact absurd h1 hnotin
            · exact h2
          have hlen3 : 3 < (List.insertionSort vooLe
              (routeAvail db now (pyUpper partida) (pyUpper chegada))).length := by
            by_contra hle
            have hd : (List.insertionSort vooLe
                (routeAvail db now (pyUpper partida) (pyUpper chegada))).drop 3 = [] :=
              List.drop_eq_nil_iff.mpr (by omega)
            rw [hd] at hvdrop
            exact absurd hvdrop (List.not_mem_nil v)
          constructor
          · rw [hleq, List.length_take]
            omega
          · intro u hu
            have hpw := List.sorted_insertionSort vooLe
              (routeAvail db now (pyUpper partida) (pyUpper chegada))
            rw [← List.take_append_drop 3 (List.insertionSort vooLe
              (routeAvail db now (pyUpper partida) (pyUpper chegada)))] at hpw
            exact (List.pairwise_append.mp hpw).2.2 u (hleq ▸ hu) v hvdrop

/-- A route state: two airports, one single-seat aircraft, an available
flight (id 1) and a full flight (id 2) on the LIS → CDG route. -/
def dbRoute : DB :=
  { aeroportos := [⟨"LIS", "Lisbon Airport", "Lisbon", "Portugal"⟩,
                   ⟨"CDG", "Paris Charles de Gaulle", "Paris", "France"⟩]
    avioes := [⟨"P1", "ModelX"⟩]
    assentos := [⟨"1A", "P1", false⟩]
    voos := [⟨1, "P1", 100, 200, "LIS", "CDG"⟩, ⟨2, "P1", 300, 400, "LIS", "CDG"⟩]
    vendas := []
    bilhetes := [⟨1, 2, 1, "X", 150, false, none, some "P1"⟩]
    next_codigo_reserva := 2
    next_bilhete_id := 2 }

/-- Witness for C5: on `dbRoute` the query returns exactly the available
flight 1 (flight 2 is full: one ticket, one seat), and the instantiated
spec conjunction holds. -/
theorem next_available_spec_witness :
    list_next_available_flights dbRoute 0 "lis" "cdg" =
      .ok (.available [⟨1, "P1", 100, 200, "LIS", "CDG"⟩]) ∧
    (([⟨1, "P1", 100, 200, "LIS", "CDG"⟩] : List Voo) ≠ [] ∧
      ([⟨1, "P1", 100, 200, "LIS", "CDG"⟩] : List Voo).length ≤ 3 ∧
      List.Sorted vooLe [⟨1, "P1", 100, 200, "LIS", "CDG"⟩] ∧
      (∀ v ∈ ([⟨1, "P1", 100, 200, "LIS", "CDG"⟩] : List Voo),
        v ∈ dbRoute.voos ∧ RouteAvailable dbRoute 0 (pyUpper "lis") (pyUpper "cdg") v) ∧
      (∀ v ∈ dbRoute.voos, RouteAvailable dbRoute 0 (pyUpper "lis") (pyUpper "cdg") v →
        v ∉ ([⟨1, "P1", 100, 200, "LIS", "CDG"⟩] : List Voo) →
        ([⟨1, "P1", 100, 200, "LIS", "CDG"⟩] : List Voo).length = 3 ∧
        ∀ u ∈ ([⟨1, "P1", 100, 200, "LIS", "CDG"⟩] : List Voo),
          u.hora_partida ≤ v.hora_partida)) :=
  ⟨by decide,
   (next_available_spec dbRoute 0 "lis" "cdg" (by decide) (by decide) (by decide) (by decide)
     (by decide) (by decide) (by decide) (by decide)).2.2
     [⟨1, "P1", 100, 200, "LIS", "CDG"⟩] (by decide)⟩

/-! ### Claim C7 -/

/-- Claim C7: equal origin/destination codes yield a 400 validation error
(never a 404), even when neither code exists; and a 404 arises only when
both codes pass the format check, are distinct, and at least one is not
in the airport table. -/
theorem route_equal_codes (db : DB) (now : Int) (partida chegada : String) :
    (pyUpper partida = pyUpper chegada →
      ∃ e, list_next_available_flights db now partida chegada = .error e ∧
        routeHttp e = 400) ∧
    (∀ e, list_next_available_flights db now partida chegada = .error e →
      routeHttp e = 404 →
      ((pyUpper partida).length = 3 ∧ pyIsUpper (pyUpper partida) = true ∧
        (pyUpper chegada).length = 3 ∧ pyIsUpper (pyUpper chegada) = true) ∧
      pyUpper partida ≠ pyUpper chegada ∧
      (¬(∃ a ∈ db.aeroportos, a.codigo = pyUpper partida) ∨
        ¬(∃ a ∈ db.aeroportos, a.codigo = pyUpper chegada))) := by
  have hunf : list_next_available_flights db now partida chegada =
      (if !((pyUpper partida).length == 3 && pyIsUpper (pyUpper partida) &&
          (pyUpper chegada).length == 3 && pyIsUpper (pyUpper chegada)) then
        Except.error RouteErr.badFormat
      else if pyUpper partida == pyUpper chegada then
        Except.error RouteErr.sameAirports
      else if !(db.aeroportos.any fun a => a.codigo == pyUpper partida) ||
          !(db.aeroportos.any fun a => a.codigo == pyUpper chegada) then
        Except.error RouteErr.unknownAirport
      else if (routeAll db now (pyUpper partida) (pyUpper chegada)).isEmpty then
        Except.ok RouteResp.noFlights
      else if ((List.insertionSort vooLe
          (routeAvail db now (pyUpper partida) (pyUpper chegada))).take 3).isEmpty then
        Except.ok RouteResp.allFull
      else
        Except.ok (RouteResp.available ((List.insertionSort vooLe
          (routeAvail db now (pyUpper partida) (pyUpper chegada))).take 3))) := rfl
  constructor
  · intro heq
    by_cases hc1 : (!((pyUpper partida).length == 3 && pyIsUpper (pyUpper partida) &&
        (pyUpper chegada).length == 3 && pyIsUpper (pyUpper chegada))) = true
    · exact ⟨.badFormat, by rw [hunf, if_pos hc1], rfl⟩
    · exact ⟨.sameAirports, by rw [hunf, if_neg hc1, if_pos (by simp [heq])], rfl⟩
  · intro e hres h404
    rw [hunf] at hres
    by_cases hc1 : (!((pyUpper partida).length == 3 && pyIsUpper (pyUpper partida) &&
        (pyUpper chegada).length == 3 && pyIsUpper (pyUpper chegada))) = true
    · rw [if_pos hc1] at hres
      injection hres with he
      rw [← he] at h404
      exact absurd h404 (by simp [routeHttp])
    · rw [if_neg hc1] at hres
      by_cases hc2 : (pyUpper partida == pyUpper chegada) = true
      · rw [if_pos hc2] at hres
        injection hres with he
        rw [← he] at h404
        exact absurd h404 (by simp [routeHttp])
      · rw [if_neg hc2] at hres
        by_cases hc3 : (!(db.aeroportos.any fun a => a.codigo == pyUpper partida) ||
            !(db.aeroportos.any fun a => a.codigo == pyUpper chegada)) = true
        · have hfmt : ((pyUpper partida).length == 3 && pyIsUpper (pyUpper partida) &&
              (pyUpper chegada).length == 3 && pyIsUpper (pyUpper chegada)) = true := by
            cases hv : ((pyUpper partida).length == 3 && pyIsUpper (pyUpper partida) &&
                (pyUpper chegada).length == 3 && pyIsUpper (pyUpper chegada)) with
            | false => exact absurd (by rw [hv]; rfl) hc1
            | true => rfl
          have hfmt2 := hfmt
          simp only [Bool.and_eq_true, beq_iff_eq] at hfmt2
          obtain ⟨⟨⟨hl1, hu1⟩, hl2⟩, hu2⟩ := hfmt2
          refine ⟨⟨hl1, hu1, hl2, hu2⟩, ?_, ?_⟩
          · intro heq
            exact hc2 (by simp [heq])
          · simp only [Bool.or_eq_true, Bool.not_eq_true'] at hc3
            rcases hc3 with h | h
            · left
              rintro ⟨a, ha, hcode⟩
              have hany : db.aeroportos.any (fun a => a.codigo == pyUpper partida) = true :=
                List.any_eq_true.mpr ⟨a, ha, by simp [hcode]⟩
              rw [hany] at h
              exact absurd h (by simp)
            · right
              rintro ⟨a, ha, hcode⟩
              have hany : db.aeroportos.any (fun a => a.codigo == pyUpper chegada) = true :=
                List.any_eq_true.mpr ⟨a, ha, by simp [hcode]⟩
              rw [hany] at h
              exact absurd h (by simp)
        · rw [if_neg hc3] at hres
          by_cases hc4 : (routeAll db now (pyUpper partida) (pyUpper chegada)).isEmpty = true
          · rw [if_pos hc4] at hres
            exact absurd hres (by simp)
          · rw [if_neg hc4] at hres
            by_cases hc5 : ((List.insertionSort vooLe
                (routeAvail db now (pyUpper partida) (pyUpper chegada))).take 3).isEmpty = true
            · rw [if_pos hc5] at hres
              exact absurd hres (by simp)
            · rw [if_neg hc5] at hres
              exact absurd hres (by simp)

/-- Witness for C7: equal codes on a state where they do exist still give
a 400, not a 404. -/
theorem route_equal_codes_witness :
    ∃ e, list_next_available_flights dbRoute 0 "LIS" "LIS" = .error e ∧
      routeHttp e = 400 :=
  (route_equal_codes dbRoute 0 "LIS" "LIS").1 rfl

/-! ### Claim C8 -/

/-- The spec's airport-code format `[A-Z]{3}`: exactly three characters,
all uppercase letters. -/
def specAirportCode (s : String) : Bool :=
  s.length == 3 && s.data.all (fun c => c.isUpper)

/-- Claim C8 is violated by the code: `"AB1"` does not match `[A-Z]{3}`,
yet the handler's format check (`len == 3 and isupper()`) passes it —
Python `isupper` ignores uncased characters — so the request reaches the
airport-existence query and is answered 404 unknown airport instead of
400 bad code format. -/
theorem departure_code_format_gap :
    specAirportCode "AB1" = false ∧
    ("AB1".length == 3 && pyIsUpper "AB1") = true ∧
    list_flights_from_departure dbRoute 0 "AB1" = .error .unknownAirport ∧
    depHttp .unknownAirport = 404 ∧
    depHttp .badFormat = 400 := by
  decide

end Aviacao
